import Mathlib

/-!
Verification of the CueCast audio engine (`src/renderer/hooks/useAudio.ts`)
and its UI callers (`src/renderer/App.tsx`) against the natural-language
specification.

The engine is single-threaded (UI event loop); asynchronous awaits are
suspension points with no interleaving modelled here, so each exposed
operation is embedded as a pure state transformer on an explicit
`AudioState`.  Web Audio node objects are represented by `Nat` identities
drawn from a fresh-id counter, times and gains by `ℚ` (all constants in the
source are exact decimals), and gain automation
(`setValueAtTime` / `linearRampToValueAtTime` / `cancelScheduledValues`) by
explicit segment lists with an evaluation function.
-/

namespace Cuecast

/-- Per-button configuration (useAudio.ts lines 6-10): display label, an
optional absolute file path, and a linear gain multiplier. -/
structure ButtonConfig where
  label : String
  path : Option String
  gain : ℚ
deriving DecidableEq

/-- One gain-automation segment: `setValueAtTime(v0, t0)` immediately followed
by `linearRampToValueAtTime(v1, t1)` on the same AudioParam. -/
structure Seg where
  t0 : ℚ
  v0 : ℚ
  t1 : ℚ
  v1 : ℚ
deriving DecidableEq

/-- Value of a linear automation ramp from `(t0, v0)` to `(t1, v1)` at time
`t`: held at `v0` before `t0`, held at `v1` from `t1` on, linear in between. -/
def rampValue (v0 t0 v1 t1 t : ℚ) : ℚ :=
  if t ≤ t0 then v0
  else if t1 ≤ t then v1
  else v0 + (v1 - v0) * (t - t0) / (t1 - t0)

/-- Value contributed by one segment at time `t`. -/
def segValue (sg : Seg) (t : ℚ) : ℚ :=
  rampValue sg.v0 sg.t0 sg.v1 sg.t1 t

/-- Value of a chronologically ordered automation schedule at time `t`
(the default AudioParam value is 1 when no event has been scheduled). -/
def schedValue : List Seg → ℚ → ℚ
  | [], _ => 1
  | [sg], t => segValue sg t
  | sg1 :: sg2 :: rest, t =>
      if t < sg2.t0 then segValue sg1 t else schedValue (sg2 :: rest) t

/-- One playing instance of a sound (useAudio.ts lines 88-106): a buffer
source node paired with its own gain node, the gain automation scheduled so
far, the scheduled start time, and the stop time scheduled by `stopAll`
(none while the voice is allowed to play to completion). -/
structure Voice where
  srcId : Nat
  gainId : Nat
  buf : Nat
  sched : List Seg
  startAt : ℚ
  stopAt : Option ℚ
deriving DecidableEq

/-- The platform/runtime environment the engine runs against: whether a path
decodes successfully (`readFileBytes` + `decodeAudioData`), whether
`setSinkId` accepts a given device id, and whether the element supports
`setSinkId` at all. -/
structure AudioEnv where
  decodeOk : String → Bool
  bindOk : String → Bool
  supportsSetSinkId : Bool

/-- The process-wide singleton `window.__cuecastAudio` state plus observation
instrumentation (construction counters and a decode log) used to state the
spec's countable properties. `sinkId = ""` denotes the system default
output. `timers` holds the absolute fire times of pending `setTimeout`
cleanups registered by `stopAll`. -/
structure AudioState where
  now : ℚ
  ctx : Option Nat
  mainGain : Option Nat
  dest : Option Nat
  el : Option Nat
  sinkId : String
  suspended : Bool
  cache : List (String × Nat)
  active : List Voice
  nextId : Nat
  ctxCreated : Nat
  busGainCreated : Nat
  sinkElCreated : Nat
  decodeLog : List String
  timers : List ℚ
deriving DecidableEq

/-- The state of a fresh process before any `init` call: no context, no
graph nodes, empty cache and active set. -/
def freshState : AudioState where
  now := 0
  ctx := none
  mainGain := none
  dest := none
  el := none
  sinkId := ""
  suspended := true
  cache := []
  active := []
  nextId := 0
  ctxCreated := 0
  busGainCreated := 0
  sinkElCreated := 0
  decodeLog := []
  timers := []

/-- Lookup in the decode cache (`cacheRef.current.get(path)`). -/
def lookupCache : List (String × Nat) → String → Option Nat
  | [], _ => none
  | (q, bf) :: rest, p => if p = q then some bf else lookupCache rest p

/-- Number of decode invocations recorded for path `p`. -/
def countPath : List String → String → Nat
  | [], _ => 0
  | q :: rest, p => (if q = p then 1 else 0) + countPath rest p

/-- The construction branch of `init` (useAudio.ts lines 33-63): build the
context, the bus gain node, the stream destination and the hidden sink
element, incrementing the corresponding construction counters and also
consuming ids for the warm-up silent buffer and its source. -/
def buildGraph (s : AudioState) : AudioState :=
  { s with
    ctx := some s.nextId,
    mainGain := some (s.nextId + 1),
    dest := some (s.nextId + 2),
    el := some (s.nextId + 3),
    nextId := s.nextId + 6,
    ctxCreated := s.ctxCreated + 1,
    busGainCreated := s.busGainCreated + 1,
    sinkElCreated := s.sinkElCreated + 1,
    sinkId := "" }

/-- The device-retarget tail of `init` (useAudio.ts lines 64-67): attempted
only when a truthy device id was supplied and the element supports
`setSinkId`; failure is swallowed. -/
def retargetOnInit (env : AudioEnv) (s1 : AudioState) (dev : Option String) :
    AudioState :=
  match dev with
  | none => s1
  | some d =>
      if d ≠ "" ∧ env.supportsSetSinkId = true ∧ s1.el.isSome = true then
        (if env.bindOk d then { s1 with sinkId := d } else s1)
      else s1

/-- Model of `init(outputDeviceId?)` (useAudio.ts lines 31-68): reuse the
existing graph if a context is already present, otherwise construct it once;
then attempt the best-effort output-device retarget. -/
def init (env : AudioEnv) (s : AudioState) (dev : Option String) : AudioState :=
  retargetOnInit env (if s.ctx.isSome then s else buildGraph s) dev

/-- The fallible `el.setSinkId(target)` call: rebinds the sink on success,
rejects otherwise. -/
def trySetSinkId (env : AudioEnv) (s : AudioState) (target : String) :
    Except String AudioState :=
  if env.bindOk target then Except.ok { s with sinkId := target }
  else Except.error "setSinkId rejected"

/-- Model of `setOutput(deviceId)` (useAudio.ts lines 70-75): if the element exists
and supports `setSinkId`, try to rebind to `deviceId || ''`; the
`try {} catch {}` swallows any rejection, leaving the state unchanged. -/
def setOutput (env : AudioEnv) (s : AudioState) (dev : Option String) : AudioState :=
  if s.el.isSome = true ∧ env.supportsSetSinkId = true then
    match trySetSinkId env s (dev.getD "") with
    | Except.ok s2 => s2
    | Except.error _ => s
  else s

/-- Result of a `trigger` call as observed by the caller: a normal early
return, a started voice, or a rejected promise from the read/decode step. -/
inductive TriggerResult where
  | noop : TriggerResult
  | played : Voice → TriggerResult
  | decodeFailed : String → TriggerResult
deriving DecidableEq

/-- Voice creation and start (useAudio.ts lines 88-106): fresh source and
gain nodes, gain set to the 0.0001 floor at `now` and ramped linearly to the
button's gain (1.0 substituted when the configured gain is falsy) over 10 ms,
start scheduled 5 ms in the future, and the voice added to the active set. -/
def startVoice (s : AudioState) (b : ButtonConfig) (bf : Nat) :
    AudioState × TriggerResult :=
  let target := if b.gain = 0 then 1 else b.gain
  let v : Voice :=
    { srcId := s.nextId,
      gainId := s.nextId + 1,
      buf := bf,
      sched := [{ t0 := s.now, v0 := 1/10000, t1 := s.now + 1/100, v1 := target }],
      startAt := s.now + 1/200,
      stopAt := none }
  ({ s with nextId := s.nextId + 2, active := s.active ++ [v] },
   TriggerResult.played v)

/-- Model of `trigger(button)` (useAudio.ts lines 77-107): early return if the
context or bus is missing or the path is falsy; otherwise resume the
context if suspended, resolve the buffer through the cache (decoding and
memoizing on a miss; an unreadable/undecodable file rejects the promise),
then create and start a voice. -/
def trigger (env : AudioEnv) (s : AudioState) (b : ButtonConfig) :
    AudioState × TriggerResult :=
  match b.path with
  | none => (s, TriggerResult.noop)
  | some p =>
    if s.ctx.isSome = false ∨ s.mainGain.isSome = false ∨ p = "" then
      (s, TriggerResult.noop)
    else
      let s1 := { s with suspended := false }
      match lookupCache s1.cache p with
      | some bf => startVoice s1 b bf
      | none =>
        if env.decodeOk p = true then
          startVoice
            { s1 with
              nextId := s1.nextId + 1,
              cache := (p, s1.nextId) :: s1.cache,
              decodeLog := s1.decodeLog ++ [p] }
            b s1.nextId
        else
          ({ s1 with decodeLog := s1.decodeLog ++ [p] },
           TriggerResult.decodeFailed p)

/-- Model of `preload(path)` (useAudio.ts lines 109-119): early return if no context,
falsy path or already cached; otherwise decode and memoize, swallowing any
decode failure. -/
def preload (env : AudioEnv) (s : AudioState) (p : String) : AudioState :=
  if s.ctx.isSome = false ∨ p = "" ∨ (lookupCache s.cache p).isSome = true then s
  else if env.decodeOk p = true then
    { s with
      cache := (p, s.nextId) :: s.cache,
      nextId := s.nextId + 1,
      decodeLog := s.decodeLog ++ [p] }
  else { s with decodeLog := s.decodeLog ++ [p] }

/-- The read `gain.gain.value || 0.0001` in `stopAll` (useAudio.ts line 128):
the current automated value, with the 0.0001 floor substituted when it is
falsy. -/
def curVal (segs : List Seg) (t : ℚ) : ℚ :=
  if schedValue segs t = 0 then 1/10000 else schedValue segs t

/-- Model of `cancelScheduledValues(t)`: automation events with event time at or
after `t` are removed — a whole segment starting at or after `t` is dropped,
and a segment whose ramp ends at or after `t` loses the ramp, leaving the
set value held from its start time. -/
def cancelFrom (segs : List Seg) (t : ℚ) : List Seg :=
  (segs.filter fun sg => decide (sg.t0 < t)).map fun sg =>
    if t ≤ sg.t1 then { sg with t1 := sg.t0, v1 := sg.v0 } else sg

/-- The per-voice part of `stopAll` (useAudio.ts lines 125-134): read the
current gain value (floored), cancel pending automation, set the current
value at `now`, ramp linearly to the 0.0001 floor over 30 ms, and schedule
the source to stop at `now + 35 ms`. -/
def stopVoice (now : ℚ) (v : Voice) : Voice :=
  { v with
    sched := cancelFrom v.sched now ++
      [{ t0 := now, v0 := curVal v.sched now, t1 := now + 3/100, v1 := 1/10000 }],
    stopAt := some (now + 7/200) }

/-- Model of `stopAll()` (useAudio.ts lines 121-139): early return if no context;
otherwise fade out and schedule a stop for every active voice, and register
a 50 ms `setTimeout` that will clear the active set. -/
def stopAll (s : AudioState) : AudioState :=
  if s.ctx.isSome then
    { s with
      active := s.active.map (stopVoice s.now),
      timers := s.timers ++ [s.now + 1/20] }
  else s

/-- The `ended` listener of a source node (useAudio.ts lines 99-104):
disconnect the nodes and delete every active pair whose source is this
source. -/
def ended (s : AudioState) (x : Nat) : AudioState :=
  { s with active := s.active.filter fun v => decide (v.srcId ≠ x) }

/-- Passage of `dt` of wall-clock/audio time: advances the clock and fires
every due `setTimeout` cleanup; a fired cleanup clears the entire active set
(useAudio.ts lines 136-138). -/
def elapse (s : AudioState) (dt : ℚ) : AudioState :=
  let t := s.now + dt
  { s with
    now := t,
    active :=
      if s.timers.filter (fun tt => decide (tt ≤ t)) = [] then s.active else [],
    timers := s.timers.filter fun tt => decide (t < tt) }

/-- The operations the engine exposes to the UI layer (useAudio.ts line
141): `return { init, trigger, setOutput, preload, stopAll }`. -/
def exposedOps : List String :=
  ["init", "trigger", "setOutput", "preload", "stopAll"]

/-- Label derivation in `assignAudio` (App.tsx line 91):
`filePath.split('/').pop()?.split('.')[0] || 'Unknown'`. -/
def deriveLabel (filePath : String) : String :=
  let base := (filePath.splitOn "/").getLastD ""
  let name := (base.splitOn ".").headD ""
  if name = "" then "Unknown" else name

/-- The slice of the persisted AppConfig relevant to audio assignment
(common/types.ts): the button list. -/
structure AppConfig where
  buttons : List ButtonConfig
deriving DecidableEq

/-- Model of `assignAudio(i)` after the user picked `filePath` (App.tsx lines 88-97):
overwrite button `i`'s label and path, then preload the new path.  Nothing
touches the cache entry of the button's previous path. -/
def assignAudio (env : AudioEnv) (cfg : AppConfig) (s : AudioState) (i : Nat)
    (filePath : String) : AppConfig × AudioState :=
  let name := deriveLabel filePath
  let old := cfg.buttons.getD i { label := "Empty", path := none, gain := 1 }
  let buttons := cfg.buttons.set i { old with label := name, path := some filePath }
  ({ buttons := buttons }, preload env s filePath)

/-- Model of `onOutputChange` (App.tsx lines 141-146): rebind the output, then set
the status text — unconditionally a success message, independent of whether
the bind took effect. -/
def onOutputChange (env : AudioEnv) (s : AudioState) (val : String) :
    AudioState × String :=
  let s2 := setOutput env s (if val = "" then none else some val)
  (s2, if val = "" then "Using default output" else "Output device changed")

/-- Iterated `trigger` of the same button, discarding the per-call results. -/
def triggerN (env : AudioEnv) (b : ButtonConfig) : Nat → AudioState → AudioState
  | 0, s => s
  | n + 1, s => triggerN env b n (trigger env s b).1

/-- A benign concrete environment: every path decodes, only the default
device binds, `setSinkId` is supported. -/
def env0 : AudioEnv where
  decodeOk := fun _ => true
  bindOk := fun d => d == ""
  supportsSetSinkId := true

/-- An environment where a previously selected device also binds. -/
def env1 : AudioEnv where
  decodeOk := fun _ => true
  bindOk := fun d => d == "" || d == "prev-device"
  supportsSetSinkId := true

/-- An initialized engine (the state after the first `init()` call). -/
def s0 : AudioState := init env0 freshState none

/-- An initialized engine with `"old.wav"` already decoded and cached. -/
def sA : AudioState := preload env0 s0 "old.wav"

/-- A button assigned to the cached file `"old.wav"`. -/
def bOld : ButtonConfig where
  label := "Old"
  path := some "old.wav"
  gain := 1

/-- A button assigned to the not-yet-cached file `"a.wav"`. -/
def bA : ButtonConfig where
  label := "A"
  path := some "a.wav"
  gain := 1

/-- An unassigned button. -/
def bNone : ButtonConfig where
  label := "Empty"
  path := none
  gain := 1

/-- A button whose configured gain is 0 (falsy in the source). -/
def bZero : ButtonConfig where
  label := "Zero"
  path := some "old.wav"
  gain := 0

/-- A one-button config whose button 0 is assigned to `"old.wav"`. -/
def cfg0 : AppConfig where
  buttons := [bOld]

/-- An initialized engine with one voice playing `"old.wav"`. -/
def sV : AudioState := (trigger env0 sA bOld).1

/-- An initialized engine whose sink is bound to `"prev-device"`. -/
def sPrev : AudioState := setOutput env1 (init env1 freshState none) (some "prev-device")

/-- Splitting the decode count over an append of decode logs. -/
theorem countPath_append (l1 l2 : List String) (p : String) :
    countPath (l1 ++ l2) p = countPath l1 p + countPath l2 p := by
  induction l1 with
  | nil => simp [countPath]
  | cons a l ih =>
    simp only [List.cons_append, countPath, List.append_eq, ih]
    omega

/-- A cache lookup for a different key skips a cons cell. -/
theorem lookupCache_cons_ne (c : List (String × Nat)) (p q : String) (bf : Nat)
    (h : q ≠ p) : lookupCache ((p, bf) :: c) q = lookupCache c q := by
  simp [lookupCache, h]

/-- The function `preload` never touches the cache entry of any other path. -/
theorem preload_lookup_other (env : AudioEnv) (s : AudioState) (fp q : String)
    (h : q ≠ fp) :
    lookupCache (preload env s fp).cache q = lookupCache s.cache q := by
  unfold preload
  split
  · rfl
  · split
    · exact lookupCache_cons_ne s.cache fp q s.nextId h
    · rfl

/-- C3: triggering a button whose path is unset is a complete no-op — the
call returns normally having created no voice, performed no decode, and
left the whole engine state unchanged. -/
theorem c3_null_path_noop (env : AudioEnv) (s : AudioState) (b : ButtonConfig)
    (h : b.path = none) :
    trigger env s b = (s, TriggerResult.noop) := by
  simp [trigger, h]

theorem c3_witness :
    bNone.path = none ∧ trigger env0 s0 bNone = (s0, TriggerResult.noop) :=
  ⟨rfl, c3_null_path_noop env0 s0 bNone rfl⟩

/-- C5 counterexample: the engine exposes no `invalidate` operation, and a
concrete reassignment of button 0 from `"old.wav"` to `"new.wav"` leaves the
old path's cache entry (buffer id 6) in place instead of dropping it. -/
theorem c5_counterexample :
    lookupCache ((assignAudio env0 cfg0 sA 0 "new.wav").2).cache "old.wav" = some 6 ∧
    "invalidate" ∉ exposedOps := by
  exact ⟨rfl, by decide⟩

/-- C5 (amended): reassigning a button's path never invalidates the old
path's cache entry — the engine exposes no `invalidate` operation and
`assignAudio` only preloads the new path, so the lookup of every other path
is unchanged and orphaned entries persist. -/
theorem c5_amended_no_invalidation (env : AudioEnv) (cfg : AppConfig)
    (s : AudioState) (i : Nat) (fp q : String) (hq : q ≠ fp) :
    lookupCache ((assignAudio env cfg s i fp).2).cache q = lookupCache s.cache q ∧
    "invalidate" ∉ exposedOps := by
  refine ⟨?_, by decide⟩
  show lookupCache (preload env s fp).cache q = lookupCache s.cache q
  exact preload_lookup_other env s fp q hq

theorem c5_witness :
    lookupCache ((assignAudio env0 cfg0 sA 0 "new.wav").2).cache "old.wav"
        = lookupCache sA.cache "old.wav" ∧
    "invalidate" ∉ exposedOps :=
  c5_amended_no_invalidation env0 cfg0 sA 0 "new.wav" "old.wav" (by decide)

/-- C6 counterexample: triggering an assigned button before any `init` call
returns normally with the state unchanged — a no-op, not a raised
`NotInitializedError` — and the observable outcome is identical to the
successful no-op on an unassigned button. -/
theorem c6_counterexample :
    trigger env0 freshState bA = (freshState, TriggerResult.noop) ∧
    trigger env0 freshState bNone = (freshState, TriggerResult.noop) := by
  exact ⟨rfl, rfl⟩

/-- C6 (amended): if `trigger` is called before `init` (no audio context
exists), the call silently returns without error and without any state
change; no `NotInitializedError` exists in the code, so the outcome is
indistinguishable from a successful no-op. -/
theorem c6_amended_silent_noop (env : AudioEnv) (s : AudioState)
    (b : ButtonConfig) (h : s.ctx = none) :
    trigger env s b = (s, TriggerResult.noop) := by
  cases hb : b.path with
  | none => simp [trigger, hb]
  | some p => simp [trigger, hb, h]

theorem c6_witness :
    freshState.ctx = none ∧
    trigger env0 freshState bZero = (freshState, TriggerResult.noop) :=
  ⟨rfl, c6_amended_silent_noop env0 freshState bZero rfl⟩

/-- C7 counterexample: with the sink bound to `"prev-device"` and a device
id `"device-xyz"` whose binding fails, the output change keeps the previous
binding (no fallback to the system default `""`) and the only status text
produced is the unconditional success message, not a `DeviceBindError`
report. -/
theorem c7_counterexample :
    sPrev.sinkId = "prev-device" ∧
    env1.bindOk "device-xyz" = false ∧
    (onOutputChange env1 sPrev "device-xyz").1.sinkId = "prev-device" ∧
    (onOutputChange env1 sPrev "device-xyz").2 = "Output device changed" := by
  exact ⟨rfl, rfl, rfl, rfl⟩

/-- C7 (amended): for every device id, `setOutput` never throws to the
caller; on binding failure the rejection is swallowed silently, the sink
keeps its previous binding (it is not re-bound to the system default), and
the engine reports nothing. -/
theorem c7_amended_silent_swallow (env : AudioEnv) (s : AudioState)
    (dev : Option String) (hfail : env.bindOk (dev.getD "") = false) :
    setOutput env s dev = s := by
  unfold setOutput
  split
  · simp [trySetSinkId, hfail]
  · rfl

theorem c7_witness :
    env0.bindOk "nope" = false ∧ setOutput env0 s0 (some "nope") = s0 :=
  ⟨rfl, c7_amended_silent_swallow env0 s0 (some "nope") rfl⟩

/-- The retarget tail of `init` can only change the sink binding: the graph
references and the construction counters pass through unchanged. -/
theorem retarget_preserves (env : AudioEnv) (s1 : AudioState) (dev : Option String) :
    (retargetOnInit env s1 dev).ctx = s1.ctx ∧
    (retargetOnInit env s1 dev).mainGain = s1.mainGain ∧
    (retargetOnInit env s1 dev).dest = s1.dest ∧
    (retargetOnInit env s1 dev).el = s1.el ∧
    (retargetOnInit env s1 dev).ctxCreated = s1.ctxCreated ∧
    (retargetOnInit env s1 dev).busGainCreated = s1.busGainCreated ∧
    (retargetOnInit env s1 dev).sinkElCreated = s1.sinkElCreated := by
  cases dev with
  | none => exact ⟨rfl, rfl, rfl, rfl, rfl, rfl, rfl⟩
  | some d =>
    by_cases h1 : d ≠ "" ∧ env.supportsSetSinkId = true ∧ s1.el.isSome = true
    · by_cases h2 : env.bindOk d = true
      · simp [retargetOnInit, h1, h2]
      · simp [retargetOnInit, h1, h2]
    · simp [retargetOnInit, h1]

/-- The first `init` call on a context-less state constructs the graph,
incrementing each construction counter exactly once. -/
theorem init_fresh (env : AudioEnv) (s : AudioState) (dev : Option String)
    (h : s.ctx.isSome = false) :
    (init env s dev).ctx.isSome = true ∧
    (init env s dev).ctxCreated = s.ctxCreated + 1 ∧
    (init env s dev).busGainCreated = s.busGainCreated + 1 ∧
    (init env s dev).sinkElCreated = s.sinkElCreated + 1 := by
  have hif : (if s.ctx.isSome then s else buildGraph s) = buildGraph s := by
    rw [h]
    rfl
  have hr := retarget_preserves env (buildGraph s) dev
  unfold init
  rw [hif]
  refine ⟨?_, ?_, ?_, ?_⟩
  · rw [hr.1]
    rfl
  · rw [hr.2.2.2.2.1]
    rfl
  · rw [hr.2.2.2.2.2.1]
    rfl
  · rw [hr.2.2.2.2.2.2]
    rfl

/-- An `init` call on an already-constructed state constructs nothing: the
graph references and the construction counters are unchanged. -/
theorem init_again (env : AudioEnv) (s : AudioState) (dev : Option String)
    (h : s.ctx.isSome = true) :
    (init env s dev).ctx = s.ctx ∧
    (init env s dev).mainGain = s.mainGain ∧
    (init env s dev).dest = s.dest ∧
    (init env s dev).el = s.el ∧
    (init env s dev).ctxCreated = s.ctxCreated ∧
    (init env s dev).busGainCreated = s.busGainCreated ∧
    (init env s dev).sinkElCreated = s.sinkElCreated := by
  have hif : (if s.ctx.isSome then s else buildGraph s) = s := by
    rw [h]
    rfl
  have hr := retarget_preserves env s dev
  unfold init
  rw [hif]
  exact hr

/-- Exactly one context, one bus gain node and one sink element have ever
been constructed in this state. -/
def InitGraphOnce (s : AudioState) : Prop :=
  s.ctxCreated = 1 ∧ s.busGainCreated = 1 ∧ s.sinkElCreated = 1

/-- Folding further `init` calls over an already-constructed state keeps
the constructed-once invariant. -/
theorem init_foldl_inv (env : AudioEnv) (devs : List (Option String)) :
    ∀ s : AudioState, s.ctx.isSome = true → InitGraphOnce s →
      (List.foldl (init env) s devs).ctx.isSome = true ∧
      InitGraphOnce (List.foldl (init env) s devs) := by
  induction devs with
  | nil => exact fun s hc hg => ⟨hc, hg⟩
  | cons d rest ih =>
    intro s hc hg
    obtain ⟨h1, _, _, _, h5, h6, h7⟩ := init_again env s d hc
    have hc2 : (init env s d).ctx.isSome = true := by rw [h1]; exact hc
    have hg2 : InitGraphOnce (init env s d) := by
      refine ⟨?_, ?_, ?_⟩
      · rw [h5]; exact hg.1
      · rw [h6]; exact hg.2.1
      · rw [h7]; exact hg.2.2
    exact ih (init env s d) hc2 hg2

/-- C1: `init` is idempotent with respect to the audio graph — over any
non-empty sequence of `init` calls in one process, exactly one context, one
bus gain node and one sink element are ever constructed, and one further
`init` call constructs nothing new (it can at most retarget the sink). -/
theorem c1_init_graph_singleton (env : AudioEnv) (devs : List (Option String))
    (dev : Option String) (hne : devs ≠ []) :
    InitGraphOnce (List.foldl (init env) freshState devs) ∧
    (init env (List.foldl (init env) freshState devs) dev).ctxCreated
        = (List.foldl (init env) freshState devs).ctxCreated ∧
    (init env (List.foldl (init env) freshState devs) dev).busGainCreated
        = (List.foldl (init env) freshState devs).busGainCreated ∧
    (init env (List.foldl (init env) freshState devs) dev).sinkElCreated
        = (List.foldl (init env) freshState devs).sinkElCreated ∧
    (init env (List.foldl (init env) freshState devs) dev).ctx
        = (List.foldl (init env) freshState devs).ctx ∧
    (init env (List.foldl (init env) freshState devs) dev).mainGain
        = (List.foldl (init env) freshState devs).mainGain ∧
    (init env (List.foldl (init env) freshState devs) dev).el
        = (List.foldl (init env) freshState devs).el := by
  obtain ⟨d0, rest, rfl⟩ : ∃ d0 rest, devs = d0 :: rest := by
    cases devs with
    | nil => exact absurd rfl hne
    | cons a l => exact ⟨a, l, rfl⟩
  obtain ⟨hb1, hb2, hb3, hb4⟩ := init_fresh env freshState d0 rfl
  have hg1 : InitGraphOnce (init env freshState d0) := by
    refine ⟨?_, ?_, ?_⟩
    · rw [hb2]; rfl
    · rw [hb3]; rfl
    · rw [hb4]; rfl
  have hfold := init_foldl_inv env rest (init env freshState d0) hb1 hg1
  have hfoldl_eq : List.foldl (init env) freshState (d0 :: rest)
      = List.foldl (init env) (init env freshState d0) rest := rfl
  rw [hfoldl_eq]
  obtain ⟨ha1, ha2, ha3, ha4, ha5, ha6, ha7⟩ :=
    init_again env (List.foldl (init env) (init env freshState d0) rest) dev hfold.1
  exact ⟨hfold.2, ha5, ha6, ha7, ha1, ha2, ha4⟩

/-- Evaluation of `trigger` on a cache hit: no decode happens, the cached
buffer is used, and one fresh voice is created and started. -/
theorem trigger_hit (env : AudioEnv) (s : AudioState) (b : ButtonConfig)
    (p : String) (bf : Nat)
    (hc : s.ctx.isSome = true) (hm : s.mainGain.isSome = true)
    (hb : b.path = some p) (hp : p ≠ "")
    (hhit : lookupCache s.cache p = some bf) :
    trigger env s b =
      ({ s with
          suspended := false,
          nextId := s.nextId + 2,
          active := s.active ++
            [{ srcId := s.nextId, gainId := s.nextId + 1, buf := bf,
               sched := [{ t0 := s.now, v0 := 1/10000, t1 := s.now + 1/100,
                           v1 := if b.gain = 0 then 1 else b.gain }],
               startAt := s.now + 1/200, stopAt := none }] },
       TriggerResult.played
         { srcId := s.nextId, gainId := s.nextId + 1, buf := bf,
           sched := [{ t0 := s.now, v0 := 1/10000, t1 := s.now + 1/100,
                       v1 := if b.gain = 0 then 1 else b.gain }],
           startAt := s.now + 1/200, stopAt := none }) := by
  simp [trigger, hb, hc, hm, hp, hhit, startVoice]

/-- Evaluation of `trigger` on a cache miss for a decodable path: exactly
one decode happens, the fresh buffer is memoized under the path, and one
fresh voice is created and started. -/
theorem trigger_miss (env : AudioEnv) (s : AudioState) (b : ButtonConfig)
    (p : String)
    (hc : s.ctx.isSome = true) (hm : s.mainGain.isSome = true)
    (hb : b.path = some p) (hp : p ≠ "")
    (hmiss : lookupCache s.cache p = none) (hdec : env.decodeOk p = true) :
    trigger env s b =
      ({ s with
          suspended := false,
          nextId := s.nextId + 3,
          cache := (p, s.nextId) :: s.cache,
          decodeLog := s.decodeLog ++ [p],
          active := s.active ++
            [{ srcId := s.nextId + 1, gainId := s.nextId + 2, buf := s.nextId,
               sched := [{ t0 := s.now, v0 := 1/10000, t1 := s.now + 1/100,
                           v1 := if b.gain = 0 then 1 else b.gain }],
               startAt := s.now + 1/200, stopAt := none }] },
       TriggerResult.played
         { srcId := s.nextId + 1, gainId := s.nextId + 2, buf := s.nextId,
           sched := [{ t0 := s.now, v0 := 1/10000, t1 := s.now + 1/100,
                       v1 := if b.gain = 0 then 1 else b.gain }],
           startAt := s.now + 1/200, stopAt := none }) := by
  simp only [trigger, hb, hc, hm, hp, hmiss, hdec, startVoice]
  simp

theorem c1_witness :
    InitGraphOnce (List.foldl (init env0) freshState [some "virtual-cable", none]) ∧
    (init env0 (List.foldl (init env0) freshState [some "virtual-cable", none])
        none).ctxCreated
      = (List.foldl (init env0) freshState [some "virtual-cable", none]).ctxCreated :=
  ⟨(c1_init_graph_singleton env0 [some "virtual-cable", none] none (by decide)).1,
   (c1_init_graph_singleton env0 [some "virtual-cable", none] none (by decide)).2.1⟩

/-- C2: the decode cache memoizes per path — starting from a state where
`p` is not yet cached, two consecutive triggers of a button assigned to `p`
decode exactly once in total, the second call hits the cache, and the
buffer it plays is the identical object that the first call decoded and
memoized. -/
theorem c2_cache_memoizes (env : AudioEnv) (s : AudioState) (b : ButtonConfig)
    (p : String)
    (hc : s.ctx.isSome = true) (hm : s.mainGain.isSome = true)
    (hb : b.path = some p) (hp : p ≠ "")
    (hmiss : lookupCache s.cache p = none) (hdec : env.decodeOk p = true) :
    ∃ v1 v2 : Voice,
      (trigger env s b).2 = TriggerResult.played v1 ∧
      (trigger env (trigger env s b).1 b).2 = TriggerResult.played v2 ∧
      v2.buf = v1.buf ∧
      lookupCache (trigger env (trigger env s b).1 b).1.cache p = some v1.buf ∧
      countPath (trigger env (trigger env s b).1 b).1.decodeLog p
        = countPath s.decodeLog p + 1 := by
  have e1 := trigger_miss env s b p hc hm hb hp hmiss hdec
  have hc1 : (trigger env s b).1.ctx.isSome = true := by rw [e1]; exact hc
  have hm1 : (trigger env s b).1.mainGain.isSome = true := by rw [e1]; exact hm
  have hhit2 : lookupCache (trigger env s b).1.cache p = some s.nextId := by
    rw [e1]
    simp [lookupCache]
  have e2 := trigger_hit env (trigger env s b).1 b p s.nextId hc1 hm1 hb hp hhit2
  exact ⟨_, _, congrArg Prod.snd e1, congrArg Prod.snd e2, rfl,
    by rw [e2, e1]; simp [lookupCache],
    by rw [e2, e1]; simp [countPath_append, countPath]⟩

theorem c2_witness :
    ∃ v1 v2 : Voice,
      (trigger env0 s0 bA).2 = TriggerResult.played v1 ∧
      (trigger env0 (trigger env0 s0 bA).1 bA).2 = TriggerResult.played v2 ∧
      v2.buf = v1.buf ∧
      lookupCache (trigger env0 (trigger env0 s0 bA).1 bA).1.cache "a.wav"
        = some v1.buf ∧
      countPath (trigger env0 (trigger env0 s0 bA).1 bA).1.decodeLog "a.wav"
        = countPath s0.decodeLog "a.wav" + 1 :=
  c2_cache_memoizes env0 s0 bA "a.wav" rfl rfl rfl (by decide) rfl rfl

/-- C9: when a button's configured gain is 0 — the only falsy rational —
the voice created by `trigger` ramps up to the substituted default 1.0, not
to the configured 0, so the button plays at full volume. -/
theorem c9_falsy_gain_full_volume (env : AudioEnv) (s : AudioState)
    (b : ButtonConfig) (p : String) (bf : Nat)
    (hc : s.ctx.isSome = true) (hm : s.mainGain.isSome = true)
    (hb : b.path = some p) (hp : p ≠ "")
    (hhit : lookupCache s.cache p = some bf) (hg : b.gain = 0) :
    ∃ v : Voice,
      (trigger env s b).2 = TriggerResult.played v ∧
      v.sched = [{ t0 := s.now, v0 := 1/10000, t1 := s.now + 1/100, v1 := 1 }] ∧
      schedValue v.sched (s.now + 1/100) = 1 := by
  rw [trigger_hit env s b p bf hc hm hb hp hhit]
  refine ⟨_, rfl, by rw [hg]; norm_num, ?_⟩
  rw [hg]
  simp only [schedValue, segValue, rampValue]
  rw [if_neg (by linarith), if_pos (le_refl _)]
  norm_num

theorem c9_witness :
    bZero.gain = 0 ∧
    (∃ v : Voice,
      (trigger env0 sA bZero).2 = TriggerResult.played v ∧
      v.sched = [{ t0 := sA.now, v0 := 1/10000, t1 := sA.now + 1/100, v1 := 1 }] ∧
      schedValue v.sched (sA.now + 1/100) = 1) :=
  ⟨rfl, c9_falsy_gain_full_volume env0 sA bZero "old.wav" 6 rfl rfl rfl
    (by decide) rfl rfl⟩

/-- When every earlier segment starts no later than `t` and the appended
final segment also starts no later than `t`, the schedule's value at `t` is
the final segment's value. -/
theorem schedValue_append_last (xs : List Seg) (sg : Seg) (t : ℚ)
    (hxs : ∀ x ∈ xs, x.t0 ≤ t) (hsg : sg.t0 ≤ t) :
    schedValue (xs ++ [sg]) t = segValue sg t := by
  induction xs with
  | nil => rfl
  | cons a as ih =>
    cases as with
    | nil =>
      simp only [List.cons_append, List.nil_append, schedValue,
        not_lt.mpr hsg, if_false]
    | cons c cs =>
      have hc : c.t0 ≤ t := hxs c (by simp)
      have step : schedValue ((a :: c :: cs) ++ [sg]) t
          = schedValue ((c :: cs) ++ [sg]) t := by
        simp only [List.cons_append, List.append_eq, schedValue,
          not_lt.mpr hc, if_false]
      rw [step]
      exact ih fun x hx => hxs x (by simp [hx])

/-- Every segment surviving `cancelFrom segs t` starts strictly before `t`. -/
theorem cancelFrom_mem_t0 (segs : List Seg) (t : ℚ) (sg : Seg)
    (h : sg ∈ cancelFrom segs t) : sg.t0 < t := by
  unfold cancelFrom at h
  obtain ⟨a, ha, rfl⟩ := List.mem_map.mp h
  have ha0 : a.t0 < t := by
    have := (List.mem_filter.mp ha).2
    simpa using this
  by_cases hle : t ≤ a.t1
  · simpa [hle] using ha0
  · simpa [hle] using ha0

/-- After `stopVoice`, the gain schedule from `now` on is exactly the
fade-out ramp from the voice's current (floored) value down to the 0.0001
floor reached at `now + 30 ms`. -/
theorem stopVoice_sched (v : Voice) (now t : ℚ) (ht : now ≤ t) :
    schedValue (stopVoice now v).sched t
      = rampValue (curVal v.sched now) now (1/10000) (now + 3/100) t := by
  have h := schedValue_append_last (cancelFrom v.sched now)
    { t0 := now, v0 := curVal v.sched now, t1 := now + 3/100, v1 := 1/10000 } t
    (fun x hx => le_of_lt (lt_of_lt_of_le (cancelFrom_mem_t0 v.sched now x hx) ht))
    ht
  exact h

/-- C4: `stopAll` puts every one of the K active voices into the stopping
fade — each voice's gain follows the linear ramp from its current (floored)
value at call time down to the 0.0001 floor at +30 ms, and its source is
scheduled to stop at +35 ms rather than abruptly; after the fixed 50 ms
cleanup window no voices remain in the active set; and `stopAll` with zero
active voices returns normally with no observable effect. -/
theorem c4_stopAll_fades (s : AudioState) (hc : s.ctx.isSome = true) :
    (stopAll s).active.length = s.active.length ∧
    (∀ v ∈ s.active,
      stopVoice s.now v ∈ (stopAll s).active ∧
      (stopVoice s.now v).stopAt = some (s.now + 7/200) ∧
      schedValue (stopVoice s.now v).sched s.now = curVal v.sched s.now ∧
      schedValue (stopVoice s.now v).sched (s.now + 3/100) = 1/10000 ∧
      (∀ t, s.now ≤ t →
        schedValue (stopVoice s.now v).sched t
          = rampValue (curVal v.sched s.now) s.now (1/10000) (s.now + 3/100) t)) ∧
    (elapse (stopAll s) (1/20)).active = [] ∧
    (s.active = [] →
      (stopAll s).active = [] ∧ (stopAll s).cache = s.cache ∧
      (stopAll s).now = s.now ∧ (stopAll s).ctx = s.ctx ∧
      (stopAll s).nextId = s.nextId ∧ (stopAll s).decodeLog = s.decodeLog) := by
  have hstop : stopAll s
      = { s with active := s.active.map (stopVoice s.now),
                 timers := s.timers ++ [s.now + 1/20] } := by
    unfold stopAll
    rw [if_pos hc]
  refine ⟨?_, ?_, ?_, ?_⟩
  · rw [hstop]
    exact (List.length_map s.active (stopVoice s.now)).symm ▸ by simp
  · intro v hv
    refine ⟨?_, rfl, ?_, ?_, ?_⟩
    · rw [hstop]
      exact List.mem_map_of_mem (stopVoice s.now) hv
    · rw [stopVoice_sched v s.now s.now (le_refl _)]
      unfold rampValue
      rw [if_pos (le_refl _)]
    · rw [stopVoice_sched v s.now (s.now + 3/100) (by linarith)]
      unfold rampValue
      rw [if_neg (by linarith), if_pos (le_refl _)]
    · exact fun t ht => stopVoice_sched v s.now t ht
  · rw [hstop]
    unfold elapse
    have hmem : (s.now + 1/20)
        ∈ (s.timers ++ [s.now + 1/20]).filter
            (fun tt => decide (tt ≤ s.now + 1/20)) := by
      rw [List.mem_filter]
      exact ⟨by simp, by simp⟩
    simp only []
    rw [if_neg (List.ne_nil_of_mem hmem)]
  · intro ha
    rw [hstop, ha]
    exact ⟨rfl, rfl, rfl, rfl, rfl, rfl⟩

theorem c4_witness :
    sV.active.length = 1 ∧
    (stopAll sV).active.length = sV.active.length ∧
    (elapse (stopAll sV) (1/20)).active = [] :=
  ⟨rfl, (c4_stopAll_fades sV rfl).1, (c4_stopAll_fades sV rfl).2.2.1⟩

/-- Two voices own distinct node objects: distinct source-node identities
and distinct gain-node identities. -/
def DistinctIds (v w : Voice) : Prop := v.srcId ≠ w.srcId ∧ v.gainId ≠ w.gainId

/-- Every active voice's node identities lie below the fresh-id counter. -/
def IdBound (s : AudioState) : Prop :=
  ∀ v ∈ s.active, v.srcId < s.nextId ∧ v.gainId < s.nextId

/-- One trigger of an assigned, decodable button on an initialized engine
appends exactly one fresh voice: its node ids are at or above the previous
fresh-id counter and below the new one, and the context and bus survive. -/
theorem trigger_step (env : AudioEnv) (s : AudioState) (b : ButtonConfig)
    (p : String)
    (hc : s.ctx.isSome = true) (hm : s.mainGain.isSome = true)
    (hb : b.path = some p) (hp : p ≠ "") (hdec : env.decodeOk p = true) :
    ∃ v : Voice,
      (trigger env s b).2 = TriggerResult.played v ∧
      (trigger env s b).1.active = s.active ++ [v] ∧
      s.nextId ≤ v.srcId ∧ s.nextId ≤ v.gainId ∧
      v.srcId < (trigger env s b).1.nextId ∧
      v.gainId < (trigger env s b).1.nextId ∧
      v.srcId ≠ v.gainId ∧
      s.nextId ≤ (trigger env s b).1.nextId ∧
      (trigger env s b).1.ctx = s.ctx ∧
      (trigger env s b).1.mainGain = s.mainGain := by
  cases hcach : lookupCache s.cache p with
  | some bf =>
    rw [trigger_hit env s b p bf hc hm hb hp hcach]
    refine ⟨_, rfl, rfl, le_refl _, Nat.le_succ _, ?_, ?_, ?_, ?_, rfl, rfl⟩
    all_goals dsimp only
    all_goals omega
  | none =>
    rw [trigger_miss env s b p hc hm hb hp hcach hdec]
    refine ⟨_, rfl, rfl, Nat.le_succ _, ?_, ?_, ?_, ?_, ?_, rfl, rfl⟩
    all_goals dsimp only
    all_goals omega

/-- Iterated triggering preserves the initialized-engine facts, keeps every
node identity fresh and pairwise distinct, and grows the active set by
exactly one voice per call. -/
theorem triggerN_inv (env : AudioEnv) (b : ButtonConfig) (p : String)
    (hb : b.path = some p) (hp : p ≠ "") (hdec : env.decodeOk p = true) :
    ∀ (n : Nat) (s : AudioState), s.ctx.isSome = true → s.mainGain.isSome = true →
      IdBound s → List.Pairwise DistinctIds s.active →
      (triggerN env b n s).active.length = s.active.length + n ∧
      IdBound (triggerN env b n s) ∧
      List.Pairwise DistinctIds (triggerN env b n s).active := by
  intro n
  induction n with
  | zero => exact fun s hc hm hB hP => ⟨rfl, hB, hP⟩
  | succ k ih =>
    intro s hc hm hB hP
    obtain ⟨v, hres, hact, hs1, hg1, hs2, hg2, hsg, hnle, hctx, hmain⟩ :=
      trigger_step env s b p hc hm hb hp hdec
    have hc2 : (trigger env s b).1.ctx.isSome = true := by rw [hctx]; exact hc
    have hm2 : (trigger env s b).1.mainGain.isSome = true := by
      rw [hmain]; exact hm
    have hB2 : IdBound (trigger env s b).1 := by
      intro w hw
      rw [hact] at hw
      rcases List.mem_append.mp hw with hw1 | hw2
      · obtain ⟨hw3, hw4⟩ := hB w hw1
        exact ⟨lt_of_lt_of_le hw3 hnle, lt_of_lt_of_le hw4 hnle⟩
      · rw [List.mem_singleton.mp hw2]
        exact ⟨hs2, hg2⟩
    have hP2 : List.Pairwise DistinctIds (trigger env s b).1.active := by
      rw [hact]
      rw [List.pairwise_append]
      refine ⟨hP, List.pairwise_singleton _ _, ?_⟩
      intro w hw u hu
      rw [List.mem_singleton.mp hu]
      obtain ⟨hw3, hw4⟩ := hB w hw
      exact ⟨Nat.ne_of_lt (lt_of_lt_of_le hw3 hs1),
             Nat.ne_of_lt (lt_of_lt_of_le hw4 hg1)⟩
    have hrec := ih (trigger env s b).1 hc2 hm2 hB2 hP2
    have hunf : triggerN env b (k + 1) s = triggerN env b k (trigger env s b).1 := rfl
    rw [hunf]
    refine ⟨?_, hrec.2.1, hrec.2.2⟩
    rw [hrec.1, hact]
    simp only [List.length_append, List.length_singleton]
    omega

/-- C8: for every N, triggering the same assigned button N times on an
initialized engine with no prior voices yields exactly N overlapping
voices, each with its own freshly created source and gain node (all node
identities pairwise distinct, with no voice-count cap), and a voice's
completion (its `ended` event) removes only that voice, leaving every other
voice — its gain schedule and timing included — untouched in the active
set. -/
theorem c8_unbounded_polyphony (env : AudioEnv) (b : ButtonConfig) (p : String)
    (n : Nat) (s : AudioState)
    (hb : b.path = some p) (hp : p ≠ "") (hdec : env.decodeOk p = true)
    (hc : s.ctx.isSome = true) (hm : s.mainGain.isSome = true)
    (ha : s.active = []) :
    (triggerN env b n s).active.length = n ∧
    List.Pairwise DistinctIds (triggerN env b n s).active ∧
    (∀ v ∈ (triggerN env b n s).active,
      v ∉ (ended (triggerN env b n s) v.srcId).active ∧
      ∀ w ∈ (triggerN env b n s).active, w.srcId ≠ v.srcId →
        w ∈ (ended (triggerN env b n s) v.srcId).active) := by
  have hB : IdBound s := by
    intro v hv
    rw [ha] at hv
    exact absurd hv (List.not_mem_nil v)
  have hP : List.Pairwise DistinctIds s.active := by
    rw [ha]
    exact List.Pairwise.nil
  obtain ⟨hlen, _, hPfin⟩ := triggerN_inv env b p hb hp hdec n s hc hm hB hP
  refine ⟨by rw [hlen, ha]; simp, hPfin, ?_⟩
  intro v hv
  constructor
  · intro hmem
    have := (List.mem_filter.mp hmem).2
    simp at this
  · intro w hw hne
    exact List.mem_filter.mpr ⟨hw, by simpa using hne⟩

theorem c8_witness :
    (triggerN env0 bA 3 s0).active.length = 3 ∧
    List.Pairwise DistinctIds (triggerN env0 bA 3 s0).active :=
  ⟨(c8_unbounded_polyphony env0 bA "a.wav" 3 s0 rfl (by decide) rfl rfl rfl rfl).1,
   (c8_unbounded_polyphony env0 bA "a.wav" 3 s0 rfl (by decide) rfl rfl rfl rfl).2.1⟩

/-- Evaluation of `stopAll` on an initialized engine. -/
theorem stopAll_built (s : AudioState) (h : s.ctx.isSome = true) :
    stopAll s = { s with active := s.active.map (stopVoice s.now),
                         timers := s.timers ++ [s.now + 1/20] } := by
  unfold stopAll
  rw [if_pos h]

/-- C10: the delayed cleanup registered by `stopAll` clears the entire
active set unconditionally once its 50 ms timer fires — so a voice triggered
after `stopAll` but before the timer elapses (here, `dt` later with
`dt < 50 ms`) is created with no scheduled stop, enters the active set, and
is then removed from it by the cleanup while still playing; a subsequent
`stopAll` iterates over an empty active set and can no longer reach that
voice. -/
theorem c10_cleanup_eats_new_voice (env : AudioEnv) (s : AudioState)
    (b : ButtonConfig) (p : String) (bf : Nat) (dt : ℚ)
    (hc : s.ctx.isSome = true) (hm : s.mainGain.isSome = true)
    (ht : s.timers = [])
    (hb : b.path = some p) (hp : p ≠ "")
    (hcache : lookupCache s.cache p = some bf)
    (hdt0 : 0 ≤ dt) (hdt : dt < 1/20) :
    ∃ v : Voice,
      (trigger env (elapse (stopAll s) dt) b).2 = TriggerResult.played v ∧
      v ∈ (trigger env (elapse (stopAll s) dt) b).1.active ∧
      v.stopAt = none ∧
      (elapse (trigger env (elapse (stopAll s) dt) b).1 (1/20 - dt)).active = [] ∧
      (stopAll (elapse (trigger env (elapse (stopAll s) dt) b).1 (1/20 - dt))).active
        = [] ∧
      (stopAll (elapse (trigger env (elapse (stopAll s) dt) b).1 (1/20 - dt))).cache
        = (elapse (trigger env (elapse (stopAll s) dt) b).1 (1/20 - dt)).cache := by
  have h1 : stopAll s
      = { s with active := s.active.map (stopVoice s.now),
                 timers := [s.now + 1/20] } := by
    rw [stopAll_built s hc, ht]
    rfl
  have hno : (decide (s.now + 1/20 ≤ s.now + dt)) = false :=
    decide_eq_false (by linarith)
  have hyes : (decide (s.now + dt < s.now + 1/20)) = true :=
    decide_eq_true (by linarith)
  have h2 : elapse (stopAll s) dt
      = { s with active := s.active.map (stopVoice s.now),
                 timers := [s.now + 1/20],
                 now := s.now + dt } := by
    rw [h1]
    unfold elapse
    simp only [List.filter, hno, hyes]
    rfl
  have h3 := trigger_hit env (elapse (stopAll s) dt) b p bf
    (by rw [h2]; exact hc) (by rw [h2]; exact hm) hb hp
    (by rw [h2]; exact hcache)
  have hdue : (decide
      (s.now + 1/20 ≤ (elapse (stopAll s) dt).now + (1/20 - dt))) = true := by
    rw [h2]
    exact decide_eq_true (by dsimp only; linarith)
  have h4 : (elapse (trigger env (elapse (stopAll s) dt) b).1 (1/20 - dt)).active
      = [] := by
    rw [h3, h2]
    unfold elapse
    simp only [List.filter]
    rw [h2] at hdue
    simp only [List.filter, hdue]
    rw [if_neg (by simp)]
  have hctx4 :
      (elapse (trigger env (elapse (stopAll s) dt) b).1 (1/20 - dt)).ctx.isSome
        = true := by
    rw [h3, h2]
    unfold elapse
    exact hc
  refine ⟨_, congrArg Prod.snd h3, ?_, ?_, h4, ?_, ?_⟩
  · rw [h3]
    simp
  · rfl
  · rw [stopAll_built _ hctx4]
    dsimp only
    rw [h4]
    rfl
  · rw [stopAll_built _ hctx4]

theorem c10_witness :
    ∃ v : Voice,
      (trigger env0 (elapse (stopAll sV) (1/100)) bOld).2
        = TriggerResult.played v ∧
      v ∈ (trigger env0 (elapse (stopAll sV) (1/100)) bOld).1.active ∧
      v.stopAt = none ∧
      (elapse (trigger env0 (elapse (stopAll sV) (1/100)) bOld).1
          (1/20 - 1/100)).active = [] ∧
      (stopAll (elapse (trigger env0 (elapse (stopAll sV) (1/100)) bOld).1
          (1/20 - 1/100))).active = [] ∧
      (stopAll (elapse (trigger env0 (elapse (stopAll sV) (1/100)) bOld).1
          (1/20 - 1/100))).cache
        = (elapse (trigger env0 (elapse (stopAll sV) (1/100)) bOld).1
            (1/20 - 1/100)).cache :=
  c10_cleanup_eats_new_voice env0 sV bOld "old.wav" 6 (1/100) rfl rfl rfl rfl
    (by decide) rfl (by norm_num) (by norm_num)

end Cuecast
